import Mathlib

/-!
Verification of the comment-voting state machine, the comment-reply
validation and the OTP authentication flow of the `ecommerce` Django
backend (apps `products` and `accounts`).

The relational state is embedded shallowly: tables become lists of rows,
the primary-key / unique constraints of the schema become explicit
well-formedness predicates, and each Python method becomes a pure Lean
function on that state.
-/

namespace Ecommerce

/-! ## Data model of `products.models`

`VoteComment.vote_type` is a two-valued choice (`like` / `dislike`). -/

inductive VoteType where
  | like
  | dislike
deriving DecidableEq, Repr

/-- A row of `CommentProduct` restricted to the fields `toggle_vote`
reads and writes: the primary key and the two denormalized counters.
The counters are modelled as `Int` because Python integer arithmetic
(`+= 1` / `-= 1`) is unbounded and can in principle go negative. -/
structure Comment where
  id : Nat
  likes_count : Int
  dislikes_count : Int
deriving DecidableEq, Repr

/-- A row of `VoteComment`: foreign keys to the comment and the user,
and the vote type.  The schema declares `unique_together = [comment, user]`. -/
structure Vote where
  comment_id : Nat
  user_id : Nat
  vote_type : VoteType
deriving DecidableEq, Repr

/-- The slice of the database state that `toggle_vote` touches. -/
structure VoteDB where
  comments : List Comment
  votes : List Vote
deriving DecidableEq, Repr

/-- `CommentProduct.objects.get(id=comment_id)`: first row with the given pk. -/
def findComment : List Comment → Nat → Option Comment
  | [], _ => none
  | c :: cs, cid => if c.id = cid then some c else findComment cs cid

/-- The lookup half of `cls.objects.get_or_create(comment=comment, user=user)`. -/
def findVote : List Vote → Nat → Nat → Option Vote
  | [], _, _ => none
  | v :: vs, cid, uid =>
    if v.comment_id = cid ∧ v.user_id = uid then some v else findVote vs cid uid

/-- `comment.save()`: write the modified row back under its primary key. -/
def updateComment (cs : List Comment) (c' : Comment) : List Comment :=
  cs.map (fun c => if c.id = c'.id then c' else c)

/-- `existing_vote.delete()`: remove the row found for `(comment, user)`. -/
def eraseVote : List Vote → Nat → Nat → List Vote
  | [], _, _ => []
  | v :: vs, cid, uid =>
    if v.comment_id = cid ∧ v.user_id = uid then vs else v :: eraseVote vs cid uid

/-- `existing_vote.vote_type = vote_type; existing_vote.save()`: rewrite the
vote type of the row found for `(comment, user)`. -/
def updateVote : List Vote → Nat → Nat → VoteType → List Vote
  | [], _, _, _ => []
  | v :: vs, cid, uid, vt =>
    if v.comment_id = cid ∧ v.user_id = uid then { v with vote_type := vt } :: vs
    else v :: updateVote vs cid uid vt

/-- `VoteComment.toggle_vote(comment_id, user, vote_type)`
(`src/products/models.py`, lines 176-221).  Returns the new database
state together with the status string the classmethod returns.

The source's `get_or_create` followed by `existing_vote.vote_type = vote_type;
existing_vote.save()` on the `created` branch nets out to inserting one vote
row carrying `vote_type`; the branch structure below mirrors the source's. -/
def toggle_vote (db : VoteDB) (cid uid : Nat) (vt : VoteType) : VoteDB × String :=
  match findComment db.comments cid with
  | none => (db, "COMMENT_NOT_FOUND")
  | some comment =>
    match findVote db.votes cid uid with
    | none =>
      let comment' :=
        match vt with
        | .like => { comment with likes_count := comment.likes_count + 1 }
        | .dislike => { comment with dislikes_count := comment.dislikes_count + 1 }
      (⟨updateComment db.comments comment', ⟨cid, uid, vt⟩ :: db.votes⟩, "VOTE_REGISTERED")
    | some existing =>
      if existing.vote_type = vt then
        let comment' :=
          match vt with
          | .like => { comment with likes_count := comment.likes_count - 1 }
          | .dislike => { comment with dislikes_count := comment.dislikes_count - 1 }
        (⟨updateComment db.comments comment', eraseVote db.votes cid uid⟩, "VOTE_REMOVED")
      else
        let comment' :=
          match vt with
          | .like =>
            { comment with likes_count := comment.likes_count + 1,
                           dislikes_count := comment.dislikes_count - 1 }
          | .dislike =>
            { comment with dislikes_count := comment.dislikes_count + 1,
                           likes_count := comment.likes_count - 1 }
        (⟨updateComment db.comments comment', updateVote db.votes cid uid vt⟩, "VOTE_CHANGED")

/-- Number of `VoteComment` rows for comment `cid` with type `vt`. -/
def countVotes (vs : List Vote) (cid : Nat) (vt : VoteType) : Nat :=
  (vs.filter (fun v => decide (v.comment_id = cid ∧ v.vote_type = vt))).length

/-- The denormalization invariant: every comment's `likes_count` and
`dislikes_count` equal the number of its LIKE resp. DISLIKE vote rows. -/
def Consistent (db : VoteDB) : Prop :=
  ∀ c ∈ db.comments,
    c.likes_count = (countVotes db.votes c.id .like : Int) ∧
    c.dislikes_count = (countVotes db.votes c.id .dislike : Int)

instance : DecidablePred Consistent := by
  intro db
  unfold Consistent
  infer_instance

/-- The `unique_together = [comment, user]` constraint on `VoteComment`. -/
def NoDupVotes (vs : List Vote) : Prop :=
  vs.Pairwise (fun a b => ¬(a.comment_id = b.comment_id ∧ a.user_id = b.user_id))

instance : DecidablePred NoDupVotes := by
  intro vs
  unfold NoDupVotes
  infer_instance

/-! ### Basic lemmas about the vote-table operations -/

theorem findComment_some {cs : List Comment} {cid : Nat} {c : Comment}
    (h : findComment cs cid = some c) : c.id = cid ∧ c ∈ cs := by
  induction cs with
  | nil => simp [findComment] at h
  | cons hd tl ih =>
    rw [findComment] at h
    split at h
    · cases h
      exact ⟨by assumption, List.mem_cons_self _ _⟩
    · rcases ih h with ⟨h1, h2⟩
      exact ⟨h1, List.mem_cons_of_mem _ h2⟩

theorem findVote_some {vs : List Vote} {cid uid : Nat} {v : Vote}
    (h : findVote vs cid uid = some v) :
    v.comment_id = cid ∧ v.user_id = uid ∧ v ∈ vs := by
  induction vs with
  | nil => simp [findVote] at h
  | cons hd tl ih =>
    rw [findVote] at h
    split at h
    · cases h
      rename_i hk
      exact ⟨hk.1, hk.2, List.mem_cons_self _ _⟩
    · rcases ih h with ⟨h1, h2, h3⟩
      exact ⟨h1, h2, List.mem_cons_of_mem _ h3⟩

theorem countVotes_cons (v : Vote) (vs : List Vote) (cid : Nat) (vt : VoteType) :
    countVotes (v :: vs) cid vt =
      (if v.comment_id = cid ∧ v.vote_type = vt then 1 else 0) + countVotes vs cid vt := by
  by_cases h : v.comment_id = cid ∧ v.vote_type = vt
  · simp [countVotes, List.filter, h, Nat.add_comm]
  · simp [countVotes, List.filter, h]

theorem countVotes_eraseVote {vs : List Vote} {cid uid : Nat} {v : Vote}
    (h : findVote vs cid uid = some v) (cid2 : Nat) (vt2 : VoteType) :
    countVotes (eraseVote vs cid uid) cid2 vt2 +
      (if v.comment_id = cid2 ∧ v.vote_type = vt2 then 1 else 0) =
      countVotes vs cid2 vt2 := by
  induction vs with
  | nil => simp [findVote] at h
  | cons hd tl ih =>
    rw [findVote] at h
    rw [eraseVote]
    split at h
    · cases h
      rename_i hk
      rw [if_pos hk, countVotes_cons, Nat.add_comm]
    · rename_i hk
      rw [if_neg hk, countVotes_cons, countVotes_cons]
      have := ih h
      omega

theorem countVotes_updateVote {vs : List Vote} {cid uid : Nat} {v : Vote}
    (h : findVote vs cid uid = some v) (vt : VoteType) (cid2 : Nat) (vt2 : VoteType) :
    countVotes (updateVote vs cid uid vt) cid2 vt2 +
      (if v.comment_id = cid2 ∧ v.vote_type = vt2 then 1 else 0) =
      countVotes vs cid2 vt2 + (if v.comment_id = cid2 ∧ vt = vt2 then 1 else 0) := by
  induction vs with
  | nil => simp [findVote] at h
  | cons hd tl ih =>
    rw [findVote] at h
    rw [updateVote]
    split at h
    · cases h
      rename_i hk
      rw [if_pos hk, countVotes_cons, countVotes_cons]
      simp only [Vote.mk.injEq]
      omega
    · rename_i hk
      rw [if_neg hk, countVotes_cons, countVotes_cons]
      have := ih h
      omega

theorem findVote_none_of_forall {vs : List Vote} {cid uid : Nat}
    (h : ∀ v ∈ vs, ¬(v.comment_id = cid ∧ v.user_id = uid)) :
    findVote vs cid uid = none := by
  induction vs with
  | nil => rfl
  | cons hd tl ih =>
    rw [findVote, if_neg (h hd (List.mem_cons_self _ _))]
    exact ih (fun v hv => h v (List.mem_cons_of_mem _ hv))

theorem findVote_eraseVote_none {vs : List Vote} {cid uid : Nat}
    (hnd : NoDupVotes vs) (v : Vote) (h : findVote vs cid uid = some v) :
    findVote (eraseVote vs cid uid) cid uid = none := by
  induction vs with
  | nil => simp [findVote] at h
  | cons hd tl ih =>
    rw [NoDupVotes, List.pairwise_cons] at hnd
    rw [findVote] at h
    rw [eraseVote]
    split at h
    · rename_i hk
      rw [if_pos hk]
      refine findVote_none_of_forall (fun w hw hc => ?_)
      exact hnd.1 w hw ⟨hk.1.trans hc.1.symm, hk.2.trans hc.2.symm⟩
    · rename_i hk
      rw [if_neg hk, findVote, if_neg hk]
      exact ih hnd.2 h

theorem findVote_updateVote_self {vs : List Vote} {cid uid : Nat} {v : Vote}
    (h : findVote vs cid uid = some v) (vt : VoteType) :
    findVote (updateVote vs cid uid vt) cid uid = some { v with vote_type := vt } := by
  induction vs with
  | nil => simp [findVote] at h
  | cons hd tl ih =>
    rw [findVote] at h
    rw [updateVote]
    split at h
    · rename_i hk
      cases h
      rw [if_pos hk, findVote, if_pos hk]
    · rename_i hk
      rw [if_neg hk, findVote, if_neg hk]
      exact ih h

theorem findComment_updateComment_self {cs : List Comment} {cid : Nat} {c : Comment}
    (h : findComment cs cid = some c) (c' : Comment) (hid : c'.id = cid) :
    findComment (updateComment cs c') cid = some c' := by
  induction cs with
  | nil => simp [findComment] at h
  | cons hd tl ih =>
    rw [findComment] at h
    rw [updateComment, List.map_cons, findComment]
    split at h
    · rename_i hk
      rw [if_pos (hk.trans hid.symm), if_pos hid]
    · rename_i hk
      rw [if_neg (fun he : hd.id = c'.id => hk (he.trans hid)), if_neg hk]
      exact ih h

theorem mem_updateComment {cs : List Comment} {c' x : Comment}
    (h : x ∈ updateComment cs c') : x = c' ∨ (x ∈ cs ∧ x.id ≠ c'.id) := by
  rw [updateComment, List.mem_map] at h
  rcases h with ⟨c, hc, hx⟩
  by_cases he : c.id = c'.id
  · left
    rw [← hx, if_pos he]
  · right
    rw [← hx, if_neg he]
    exact ⟨hc, he⟩

theorem consistent_updateComment {db : VoteDB} (h : Consistent db) {cid : Nat}
    {c' : Comment} (hid : c'.id = cid) {nvs : List Vote}
    (hL : c'.likes_count = (countVotes nvs cid .like : Int))
    (hD : c'.dislikes_count = (countVotes nvs cid .dislike : Int))
    (hOther : ∀ cid2, cid2 ≠ cid → ∀ vt2,
      countVotes nvs cid2 vt2 = countVotes db.votes cid2 vt2) :
    Consistent ⟨updateComment db.comments c', nvs⟩ := by
  intro x hx
  rcases mem_updateComment hx with rfl | ⟨hm, hne⟩
  · exact ⟨by rw [hid]; exact hL, by rw [hid]; exact hD⟩
  · have hne2 : x.id ≠ cid := fun he => hne (he.trans hid.symm)
    exact ⟨by rw [hOther x.id hne2]; exact (h x hm).1,
      by rw [hOther x.id hne2]; exact (h x hm).2⟩

/-! ### Claim theorems about `toggle_vote` -/

/-- C1: `toggle_vote` preserves the denormalization invariant: starting from
a state where every comment's `likes_count` / `dislikes_count` equal the
number of its LIKE / DISLIKE vote rows, each call keeps this true, so every
sequence of calls does. -/
theorem toggle_vote_preserves_consistency (db : VoteDB) (cid uid : Nat) (vt : VoteType)
    (h : Consistent db) : Consistent (toggle_vote db cid uid vt).1 := by
  rcases hc : findComment db.comments cid with _ | comment
  · simp only [toggle_vote, hc]
    exact h
  · have hcid : comment.id = cid := (findComment_some hc).1
    have hcm : comment ∈ db.comments := (findComment_some hc).2
    have hcounts := h comment hcm
    rw [hcid] at hcounts
    rcases hv : findVote db.votes cid uid with _ | existing
    · simp only [toggle_vote, hc, hv]
      cases vt with
      | like =>
        refine consistent_updateComment h (show ({ comment with likes_count := comment.likes_count + 1 } : Comment).id = cid from hcid) ?_ ?_ ?_
        · dsimp only
          rw [countVotes_cons, if_pos ⟨rfl, rfl⟩]
          have := hcounts.1
          push_cast
          omega
        · dsimp only
          rw [countVotes_cons, if_neg (fun hh => VoteType.noConfusion hh.2)]
          have := hcounts.2
          omega
        · intro cid2 hne vt2
          rw [countVotes_cons, if_neg (fun hh => hne hh.1.symm), Nat.zero_add]
      | dislike =>
        refine consistent_updateComment h (show ({ comment with dislikes_count := comment.dislikes_count + 1 } : Comment).id = cid from hcid) ?_ ?_ ?_
        · dsimp only
          rw [countVotes_cons, if_neg (fun hh => VoteType.noConfusion hh.2)]
          have := hcounts.1
          omega
        · dsimp only
          rw [countVotes_cons, if_pos ⟨rfl, rfl⟩]
          have := hcounts.2
          push_cast
          omega
        · intro cid2 hne vt2
          rw [countVotes_cons, if_neg (fun hh => hne hh.1.symm), Nat.zero_add]
    · have hfv := findVote_some hv
      by_cases hvt : existing.vote_type = vt
      · simp only [toggle_vote, hc, hv, if_pos hvt]
        cases vt with
        | like =>
          refine consistent_updateComment h (show ({ comment with likes_count := comment.likes_count - 1 } : Comment).id = cid from hcid) ?_ ?_ ?_
          · dsimp only
            have hE := countVotes_eraseVote hv cid .like
            rw [if_pos ⟨hfv.1, hvt⟩] at hE
            have := hcounts.1
            omega
          · dsimp only
            have hE := countVotes_eraseVote hv cid .dislike
            rw [if_neg (fun hh => VoteType.noConfusion (hvt.symm.trans hh.2))] at hE
            have := hcounts.2
            omega
          · intro cid2 hne vt2
            have hE := countVotes_eraseVote hv cid2 vt2
            rw [if_neg (fun hh => hne (hh.1.symm.trans hfv.1))] at hE
            omega
        | dislike =>
          refine consistent_updateComment h (show ({ comment with dislikes_count := comment.dislikes_count - 1 } : Comment).id = cid from hcid) ?_ ?_ ?_
          · dsimp only
            have hE := countVotes_eraseVote hv cid .like
            rw [if_neg (fun hh => VoteType.noConfusion (hvt.symm.trans hh.2))] at hE
            have := hcounts.1
            omega
          · dsimp only
            have hE := countVotes_eraseVote hv cid .dislike
            rw [if_pos ⟨hfv.1, hvt⟩] at hE
            have := hcounts.2
            omega
          · intro cid2 hne vt2
            have hE := countVotes_eraseVote hv cid2 vt2
            rw [if_neg (fun hh => hne (hh.1.symm.trans hfv.1))] at hE
            omega
      · simp only [toggle_vote, hc, hv, if_neg hvt]
        cases vt with
        | like =>
          have hod : existing.vote_type = .dislike := by
            cases hx : existing.vote_type
            · exact absurd hx hvt
            · rfl
          refine consistent_updateComment h (show ({ comment with likes_count := comment.likes_count + 1, dislikes_count := comment.dislikes_count - 1 } : Comment).id = cid from hcid) ?_ ?_ ?_
          · dsimp only
            have hU := countVotes_updateVote hv .like cid .like
            rw [if_neg (fun hh => VoteType.noConfusion (hod.symm.trans hh.2)),
              if_pos ⟨hfv.1, rfl⟩] at hU
            have := hcounts.1
            omega
          · dsimp only
            have hU := countVotes_updateVote hv .like cid .dislike
            rw [if_pos ⟨hfv.1, hod⟩,
              if_neg (fun hh => VoteType.noConfusion hh.2)] at hU
            have := hcounts.2
            omega
          · intro cid2 hne vt2
            have hU := countVotes_updateVote hv .like cid2 vt2
            rw [if_neg (fun hh => hne (hh.1.symm.trans hfv.1)),
              if_neg (fun hh => hne (hh.1.symm.trans hfv.1))] at hU
            omega
        | dislike =>
          have hod : existing.vote_type = .like := by
            cases hx : existing.vote_type
            · rfl
            · exact absurd hx hvt
          refine consistent_updateComment h (show ({ comment with dislikes_count := comment.dislikes_count + 1, likes_count := comment.likes_count - 1 } : Comment).id = cid from hcid) ?_ ?_ ?_
          · dsimp only
            have hU := countVotes_updateVote hv .dislike cid .like
            rw [if_pos ⟨hfv.1, hod⟩,
              if_neg (fun hh => VoteType.noConfusion hh.2)] at hU
            have := hcounts.1
            omega
          · dsimp only
            have hU := countVotes_updateVote hv .dislike cid .dislike
            rw [if_neg (fun hh => VoteType.noConfusion (hod.symm.trans hh.2)),
              if_pos ⟨hfv.1, rfl⟩] at hU
            have := hcounts.2
            omega
          · intro cid2 hne vt2
            have hU := countVotes_updateVote hv .dislike cid2 vt2
            rw [if_neg (fun hh => hne (hh.1.symm.trans hfv.1)),
              if_neg (fun hh => hne (hh.1.symm.trans hfv.1))] at hU
            omega

theorem toggle_vote_preserves_consistency_witness :
    Consistent ⟨[⟨1, 1, 0⟩], [⟨1, 5, VoteType.like⟩]⟩ ∧
    Consistent (toggle_vote ⟨[⟨1, 1, 0⟩], [⟨1, 5, VoteType.like⟩]⟩ 1 5
      VoteType.dislike).1 :=
  ⟨by decide,
    toggle_vote_preserves_consistency ⟨[⟨1, 1, 0⟩], [⟨1, 5, VoteType.like⟩]⟩ 1 5
      VoteType.dislike (by decide)⟩

/-- C8: if no comment with the given id exists, `toggle_vote` returns
"COMMENT_NOT_FOUND" and the database state is unchanged: no vote row is
created, deleted or modified and no comment counters change. -/
theorem toggle_vote_comment_not_found (db : VoteDB) (cid uid : Nat) (vt : VoteType)
    (h : findComment db.comments cid = none) :
    toggle_vote db cid uid vt = (db, "COMMENT_NOT_FOUND") := by
  simp only [toggle_vote, h]

theorem toggle_vote_comment_not_found_witness :
    findComment (VoteDB.mk [] []).comments 1 = none ∧
    toggle_vote ⟨[], []⟩ 1 2 VoteType.like = (⟨[], []⟩, "COMMENT_NOT_FOUND") :=
  ⟨rfl, toggle_vote_comment_not_found ⟨[], []⟩ 1 2 VoteType.like rfl⟩

/-- C2: for an existing comment, `toggle_vote` is a three-way transition:
with no prior vote it returns "VOTE_REGISTERED" and creates the vote row;
with a prior vote of the same type it returns "VOTE_REMOVED" and deletes
the row; with a prior vote of the opposite type it returns "VOTE_CHANGED"
and rewrites the row to the new type. -/
theorem toggle_vote_three_way (db : VoteDB) (cid uid : Nat) (vt : VoteType) (c : Comment)
    (hc : findComment db.comments cid = some c) (hnd : NoDupVotes db.votes) :
    (findVote db.votes cid uid = none →
      (toggle_vote db cid uid vt).2 = "VOTE_REGISTERED" ∧
      ∃ w, findVote (toggle_vote db cid uid vt).1.votes cid uid = some w ∧
        w.vote_type = vt) ∧
    (∀ v, findVote db.votes cid uid = some v → v.vote_type = vt →
      (toggle_vote db cid uid vt).2 = "VOTE_REMOVED" ∧
      findVote (toggle_vote db cid uid vt).1.votes cid uid = none) ∧
    (∀ v, findVote db.votes cid uid = some v → ¬v.vote_type = vt →
      (toggle_vote db cid uid vt).2 = "VOTE_CHANGED" ∧
      ∃ w, findVote (toggle_vote db cid uid vt).1.votes cid uid = some w ∧
        w.vote_type = vt) := by
  refine ⟨fun hv => ?_, fun v hv hvt => ?_, fun v hv hvt => ?_⟩
  · simp only [toggle_vote, hc, hv]
    refine ⟨trivial, ⟨cid, uid, vt⟩, ?_, rfl⟩
    rw [findVote, if_pos ⟨rfl, rfl⟩]
  · simp only [toggle_vote, hc, hv, if_pos hvt]
    exact ⟨trivial, findVote_eraseVote_none hnd v hv⟩
  · simp only [toggle_vote, hc, hv, if_neg hvt]
    exact ⟨trivial, { v with vote_type := vt }, findVote_updateVote_self hv vt, rfl⟩

theorem toggle_vote_three_way_witness :
    findComment [(⟨1, 1, 0⟩ : Comment)] 1 = some ⟨1, 1, 0⟩ ∧
    NoDupVotes [(⟨1, 5, VoteType.like⟩ : Vote)] ∧
    ((toggle_vote ⟨[⟨1, 1, 0⟩], [⟨1, 5, VoteType.like⟩]⟩ 1 5 VoteType.like).2 =
        "VOTE_REMOVED" ∧
      findVote (toggle_vote ⟨[⟨1, 1, 0⟩], [⟨1, 5, VoteType.like⟩]⟩ 1 5
          VoteType.like).1.votes 1 5 = none) :=
  ⟨by decide, by decide,
    (toggle_vote_three_way ⟨[⟨1, 1, 0⟩], [⟨1, 5, VoteType.like⟩]⟩ 1 5 VoteType.like
        ⟨1, 1, 0⟩ (by decide) (by decide)).2.1 ⟨1, 5, VoteType.like⟩ (by decide) rfl⟩

/-- C3: toggling twice with the same `(comment, user, vote_type)` from a state
where the user has no vote on the comment is a round trip: the first call
registers, the second removes, and afterwards the comment's counters equal
their original values and the user again has no vote row on the comment. -/
theorem toggle_vote_round_trip (db : VoteDB) (cid uid : Nat) (vt : VoteType) (c : Comment)
    (hc : findComment db.comments cid = some c)
    (hv : findVote db.votes cid uid = none) :
    (toggle_vote db cid uid vt).2 = "VOTE_REGISTERED" ∧
    (toggle_vote (toggle_vote db cid uid vt).1 cid uid vt).2 = "VOTE_REMOVED" ∧
    (∃ c', findComment
        (toggle_vote (toggle_vote db cid uid vt).1 cid uid vt).1.comments cid = some c' ∧
      c'.likes_count = c.likes_count ∧ c'.dislikes_count = c.dislikes_count) ∧
    findVote (toggle_vote (toggle_vote db cid uid vt).1 cid uid vt).1.votes cid uid =
      none := by
  have hid : c.id = cid := (findComment_some hc).1
  cases vt with
  | like =>
    have h1 : toggle_vote db cid uid .like =
        (⟨updateComment db.comments { c with likes_count := c.likes_count + 1 },
          ⟨cid, uid, .like⟩ :: db.votes⟩, "VOTE_REGISTERED") := by
      simp only [toggle_vote, hc, hv]
    have hc1 : findComment
        (updateComment db.comments { c with likes_count := c.likes_count + 1 }) cid =
        some { c with likes_count := c.likes_count + 1 } :=
      findComment_updateComment_self hc _ hid
    have hv1 : findVote (⟨cid, uid, VoteType.like⟩ :: db.votes) cid uid =
        some ⟨cid, uid, .like⟩ := by
      rw [findVote, if_pos ⟨rfl, rfl⟩]
    have he : eraseVote (⟨cid, uid, VoteType.like⟩ :: db.votes) cid uid = db.votes := by
      rw [eraseVote, if_pos ⟨rfl, rfl⟩]
    rw [h1]
    simp only [toggle_vote, hc1, hv1, he, if_true]
    refine ⟨trivial, trivial, ⟨⟨{ c with likes_count := c.likes_count + 1 - 1 }, ?_, by simp, rfl⟩,
      hv⟩⟩
    exact findComment_updateComment_self hc1 _ hid
  | dislike =>
    have h1 : toggle_vote db cid uid .dislike =
        (⟨updateComment db.comments { c with dislikes_count := c.dislikes_count + 1 },
          ⟨cid, uid, .dislike⟩ :: db.votes⟩, "VOTE_REGISTERED") := by
      simp only [toggle_vote, hc, hv]
    have hc1 : findComment
        (updateComment db.comments { c with dislikes_count := c.dislikes_count + 1 }) cid =
        some { c with dislikes_count := c.dislikes_count + 1 } :=
      findComment_updateComment_self hc _ hid
    have hv1 : findVote (⟨cid, uid, VoteType.dislike⟩ :: db.votes) cid uid =
        some ⟨cid, uid, .dislike⟩ := by
      rw [findVote, if_pos ⟨rfl, rfl⟩]
    have he : eraseVote (⟨cid, uid, VoteType.dislike⟩ :: db.votes) cid uid = db.votes := by
      rw [eraseVote, if_pos ⟨rfl, rfl⟩]
    rw [h1]
    simp only [toggle_vote, hc1, hv1, he, if_true]
    refine ⟨trivial, trivial, ⟨⟨{ c with dislikes_count := c.dislikes_count + 1 - 1 }, ?_, rfl,
      by simp⟩, hv⟩⟩
    exact findComment_updateComment_self hc1 _ hid

theorem toggle_vote_round_trip_witness :
    findComment [(⟨3, 2, 4⟩ : Comment)] 3 = some ⟨3, 2, 4⟩ ∧
    findVote ([] : List Vote) 3 9 = none ∧
    ((toggle_vote ⟨[⟨3, 2, 4⟩], []⟩ 3 9 VoteType.dislike).2 = "VOTE_REGISTERED" ∧
      (toggle_vote (toggle_vote ⟨[⟨3, 2, 4⟩], []⟩ 3 9 VoteType.dislike).1 3 9
        VoteType.dislike).2 = "VOTE_REMOVED" ∧
      (∃ c', findComment (toggle_vote (toggle_vote ⟨[⟨3, 2, 4⟩], []⟩ 3 9
            VoteType.dislike).1 3 9 VoteType.dislike).1.comments 3 = some c' ∧
        c'.likes_count = (2 : Int) ∧ c'.dislikes_count = (4 : Int)) ∧
      findVote (toggle_vote (toggle_vote ⟨[⟨3, 2, 4⟩], []⟩ 3 9 VoteType.dislike).1 3 9
        VoteType.dislike).1.votes 3 9 = none) :=
  ⟨by decide, rfl,
    toggle_vote_round_trip ⟨[⟨3, 2, 4⟩], []⟩ 3 9 VoteType.dislike ⟨3, 2, 4⟩
      (by decide) rfl⟩

/-! ## OTP authentication flow (`accounts`)

The views `GenerateOTPView.post` and `VerifyOTPView.post` are embedded from
`src/accounts/views/auth_views.py`.  The helpers they call (`generate_otp`,
`verify_otp`, `delete_otp` from `accounts/otp.py`) and the `User` model are
not part of the provided sources, so they are modelled from the spec's
description of the OTP lifecycle. -/

/-- A stored one-time password: the code and the instant its lifetime ends. -/
structure OTPRec where
  code : Nat
  expires_at : Nat
deriving DecidableEq, Repr

/-- The OTP store, keyed by user id. -/
abbrev OTPStore := List (Nat × OTPRec)

/-- Modelled from the spec: the OTP is "short-lived"; the exact lifetime is
not in the provided sources, so it is fixed as an arbitrary constant. -/
def OTP_LIFETIME : Nat := 120

/-- Modelled from the spec: `delete_otp(user_id)` (from `accounts/otp.py`,
not under the provided sources) removes the OTP stored for the user. -/
def delete_otp : OTPStore → Nat → OTPStore
  | [], _ => []
  | e :: es, uid => if e.1 = uid then delete_otp es uid else e :: delete_otp es uid

/-- Modelled from the spec: `generate_otp(user_id)` (from `accounts/otp.py`,
not under the provided sources) stores a fresh code for the user, with expiry
`OTP_LIFETIME` after issuance; the random draw is passed in as `code`. -/
def generate_otp (store : OTPStore) (uid code now : Nat) : OTPStore :=
  (uid, ⟨code, now + OTP_LIFETIME⟩) :: store

/-- Look up the OTP stored for a user. -/
def lookupOTP : OTPStore → Nat → Option OTPRec
  | [], _ => none
  | e :: es, uid => if e.1 = uid then some e.2 else lookupOTP es uid

/-- Modelled from the spec: `verify_otp(user_id, code)` (from
`accounts/otp.py`, not under the provided sources) succeeds iff an OTP is
stored for the user, the submitted code matches it, and its lifetime has not
yet elapsed. -/
def verify_otp (store : OTPStore) (uid code now : Nat) : Bool :=
  match lookupOTP store uid with
  | none => false
  | some r => decide (code = r.code ∧ now < r.expires_at)

/-- A row of `accounts.models.User` restricted to the fields the auth views
touch: pk, phone number and the `is_active` flag. -/
structure UserRec where
  id : Nat
  number : String
  is_active : Bool
deriving DecidableEq, Repr

/-- `User.objects.filter(number=...).first()` / `get_object_or_404`. -/
def findUserByNumber : List UserRec → String → Option UserRec
  | [], _ => none
  | u :: us, n => if u.number = n then some u else findUserByNumber us n

/-- `user.save()` on an existing row: write back under the primary key. -/
def updateUser (us : List UserRec) (u' : UserRec) : List UserRec :=
  us.map (fun u => if u.id = u'.id then u' else u)

/-- The slice of the backend state the auth views touch. -/
structure AuthState where
  users : List UserRec
  otps : OTPStore
  next_user_id : Nat
deriving DecidableEq, Repr

/-- The pair `RefreshToken.for_user(user)` / its access token, abstracted to
the id of the user each token is issued for. -/
structure TokenPair where
  refresh_user : Nat
  access_user : Nat
deriving DecidableEq, Repr

/-- An HTTP response of the auth views: the status code plus, on a login
success, the token pair and `created` flag of the response body. -/
structure AuthResponse where
  status : Nat
  tokens : Option TokenPair
  created : Option Bool
deriving DecidableEq, Repr

/-- `VerifyOTPView._handle_login(number)`: refetch the user by number
(creating one if absent) and issue the refresh/access token pair. -/
def handle_login (st : AuthState) (number : String) : AuthState × TokenPair × Bool :=
  match findUserByNumber st.users number with
  | some u => (st, ⟨u.id, u.id⟩, false)
  | none =>
    ({ st with
        users := st.users ++ [⟨st.next_user_id, number, false⟩]
        next_user_id := st.next_user_id + 1 },
      ⟨st.next_user_id, st.next_user_id⟩, true)

/-- `VerifyOTPView.post` (`src/accounts/views/auth_views.py`, lines 65-78),
after serializer validation: look the user up by phone number (404 when
absent); when the OTP checks out, activate and save the user, delete the
stored OTP, and answer 200 with the tokens of `_handle_login`; otherwise
answer 401 with the state untouched. -/
def verifyOTPPost (st : AuthState) (number : String) (otp now : Nat) :
    AuthState × AuthResponse :=
  match findUserByNumber st.users number with
  | none => (st, ⟨404, none, none⟩)
  | some user =>
    match verify_otp st.otps user.id otp now with
    | true =>
      let st2 : AuthState :=
        { st with
          users := updateUser st.users { user with is_active := true }
          otps := delete_otp st.otps user.id }
      match handle_login st2 number with
      | (st3, tokens, created) => (st3, ⟨200, some tokens, some created⟩)
    | false => (st, ⟨401, none, none⟩)

/-- `GenerateOTPView.post` (`src/accounts/views/auth_views.py`, lines 29-44),
after serializer validation: get-or-create the user by number, delete any
stored OTP for the user, then generate and store a new one; the status is
200 when the user existed and 201 when it was created. -/
def generateOTPPost (st : AuthState) (number : String) (code now : Nat) :
    AuthState × AuthResponse :=
  match findUserByNumber st.users number with
  | some u =>
    ({ st with otps := generate_otp (delete_otp st.otps u.id) u.id code now },
      ⟨200, none, none⟩)
  | none =>
    ({ users := st.users ++ [⟨st.next_user_id, number, false⟩],
       otps := generate_otp (delete_otp st.otps st.next_user_id) st.next_user_id code now,
       next_user_id := st.next_user_id + 1 },
      ⟨201, none, none⟩)

/-- Number of OTP-store entries for a user. -/
def countKey (store : OTPStore) (uid : Nat) : Nat :=
  (store.filter (fun e => decide (e.1 = uid))).length

/-- The `User` primary keys are unique. -/
def NoDupUserIds (us : List UserRec) : Prop :=
  (us.map UserRec.id).Nodup

instance : DecidablePred NoDupUserIds := by
  intro us
  unfold NoDupUserIds
  infer_instance

/-! ### Basic lemmas about the OTP store and the user table -/

theorem lookupOTP_delete_otp (store : OTPStore) (uid : Nat) :
    lookupOTP (delete_otp store uid) uid = none := by
  induction store with
  | nil => rfl
  | cons e es ih =>
    rw [delete_otp]
    split
    · exact ih
    · rename_i hk
      rw [lookupOTP, if_neg hk]
      exact ih

theorem countKey_delete_otp (store : OTPStore) (uid : Nat) :
    countKey (delete_otp store uid) uid = 0 := by
  induction store with
  | nil => rfl
  | cons e es ih =>
    rw [delete_otp]
    split
    · exact ih
    · rename_i hk
      simpa [countKey, List.filter, hk] using ih

theorem findUserByNumber_some {us : List UserRec} {n : String} {u : UserRec}
    (h : findUserByNumber us n = some u) : u.number = n ∧ u ∈ us := by
  induction us with
  | nil => simp [findUserByNumber] at h
  | cons hd tl ih =>
    rw [findUserByNumber] at h
    split at h
    · cases h
      exact ⟨by assumption, List.mem_cons_self _ _⟩
    · rcases ih h with ⟨h1, h2⟩
      exact ⟨h1, List.mem_cons_of_mem _ h2⟩

theorem findUserByNumber_updateUser {us : List UserRec} {n : String} {u : UserRec}
    (h : findUserByNumber us n = some u) (hnd : NoDupUserIds us)
    {u' : UserRec} (hid : u'.id = u.id) (hn : u'.number = n) :
    findUserByNumber (updateUser us u') n = some u' := by
  induction us with
  | nil => simp [findUserByNumber] at h
  | cons hd tl ih =>
    rw [NoDupUserIds, List.map_cons, List.nodup_cons] at hnd
    rw [findUserByNumber] at h
    rw [updateUser, List.map_cons, findUserByNumber]
    split at h
    · cases h
      rw [if_pos hid.symm, if_pos hn]
    · rename_i hk
      have hneid : ¬hd.id = u'.id := by
        intro he
        have hmem : u ∈ tl := (findUserByNumber_some h).2
        exact hnd.1 (by
          rw [he, hid]
          exact List.mem_map_of_mem UserRec.id hmem)
      rw [if_neg hneid, if_neg hk]
      exact ih h hnd.2

theorem countKey_cons (e : Nat × OTPRec) (s : OTPStore) (uid : Nat) :
    countKey (e :: s) uid = (if e.1 = uid then 1 else 0) + countKey s uid := by
  by_cases h : e.1 = uid
  · simp [countKey, List.filter, h, Nat.add_comm]
  · simp [countKey, List.filter, h]

/-! ### Claim theorems about the OTP flow -/

/-- C7: every issued OTP has an expiry: once its lifetime has elapsed without
verification, `verify_otp` returns false for that user and code. -/
theorem verify_otp_expired (store : OTPStore) (uid code now : Nat) (r : OTPRec)
    (hl : lookupOTP store uid = some r) (hexp : r.expires_at ≤ now) :
    verify_otp store uid code now = false := by
  simp only [verify_otp, hl, decide_eq_false_iff_not]
  exact fun hh => Nat.not_lt.mpr hexp hh.2

theorem verify_otp_expired_witness :
    lookupOTP [(3, ⟨42, 10⟩)] 3 = some ⟨42, 10⟩ ∧ (10 : Nat) ≤ 10 ∧
    verify_otp [(3, ⟨42, 10⟩)] 3 42 10 = false :=
  ⟨rfl, Nat.le_refl 10, verify_otp_expired [(3, ⟨42, 10⟩)] 3 42 10 ⟨42, 10⟩ rfl
    (Nat.le_refl 10)⟩

/-- C6: when `verify_otp` returns false, `VerifyOTPView.post` answers 401 and
the state is untouched: `is_active` is not modified, the stored OTP is not
deleted, and no tokens are issued. -/
theorem verifyOTPPost_invalid (st : AuthState) (number : String) (otp now : Nat)
    (u : UserRec) (hu : findUserByNumber st.users number = some u)
    (hbad : verify_otp st.otps u.id otp now = false) :
    verifyOTPPost st number otp now = (st, ⟨401, none, none⟩) := by
  simp only [verifyOTPPost, hu, hbad]

theorem verifyOTPPost_invalid_witness :
    findUserByNumber [⟨1, "0912", false⟩] "0912" = some ⟨1, "0912", false⟩ ∧
    verify_otp [] 1 5 0 = false ∧
    verifyOTPPost ⟨[⟨1, "0912", false⟩], [], 2⟩ "0912" 5 0 =
      (⟨[⟨1, "0912", false⟩], [], 2⟩, ⟨401, none, none⟩) :=
  ⟨rfl, rfl, verifyOTPPost_invalid ⟨[⟨1, "0912", false⟩], [], 2⟩ "0912" 5 0
    ⟨1, "0912", false⟩ rfl rfl⟩

/-- C5: when `verify_otp` succeeds, `VerifyOTPView.post` activates the account
and issues tokens: the stored user row gets `is_active = true` and the
response is HTTP 200 carrying a refresh and an access token for that user. -/
theorem verifyOTPPost_success (st : AuthState) (number : String) (otp now : Nat)
    (u : UserRec) (hu : findUserByNumber st.users number = some u)
    (hnd : NoDupUserIds st.users)
    (hok : verify_otp st.otps u.id otp now = true) :
    (verifyOTPPost st number otp now).2.status = 200 ∧
    (verifyOTPPost st number otp now).2.tokens = some ⟨u.id, u.id⟩ ∧
    ∃ u2, findUserByNumber (verifyOTPPost st number otp now).1.users number = some u2 ∧
      u2.id = u.id ∧ u2.is_active = true := by
  have hnum : u.number = number := (findUserByNumber_some hu).1
  have hfind2 : findUserByNumber (updateUser st.users { u with is_active := true })
      number = some { u with is_active := true } :=
    findUserByNumber_updateUser hu hnd rfl hnum
  simp only [verifyOTPPost, hu, hok, handle_login, hfind2]
  exact ⟨trivial, trivial, { u with is_active := true }, rfl, rfl, rfl⟩

theorem verifyOTPPost_success_witness :
    findUserByNumber [⟨1, "0912", false⟩] "0912" = some ⟨1, "0912", false⟩ ∧
    NoDupUserIds [⟨1, "0912", false⟩] ∧
    verify_otp [(1, ⟨5, 30⟩)] 1 5 0 = true ∧
    ((verifyOTPPost ⟨[⟨1, "0912", false⟩], [(1, ⟨5, 30⟩)], 2⟩ "0912" 5 0).2.status = 200 ∧
      (verifyOTPPost ⟨[⟨1, "0912", false⟩], [(1, ⟨5, 30⟩)], 2⟩ "0912" 5 0).2.tokens =
        some ⟨1, 1⟩ ∧
      ∃ u2, findUserByNumber
          (verifyOTPPost ⟨[⟨1, "0912", false⟩], [(1, ⟨5, 30⟩)], 2⟩ "0912" 5 0).1.users
          "0912" = some u2 ∧ u2.id = 1 ∧ u2.is_active = true) :=
  ⟨rfl, by decide, by decide,
    verifyOTPPost_success ⟨[⟨1, "0912", false⟩], [(1, ⟨5, 30⟩)], 2⟩ "0912" 5 0
      ⟨1, "0912", false⟩ rfl (by decide) (by decide)⟩

/-- C4: an issued OTP is single-use: when `VerifyOTPView.post` succeeds, the
stored OTP for the user is deleted before the response is returned, so a
second verification attempt with the same OTP for the same user (at any later
time) answers 401 instead of succeeding. -/
theorem verifyOTPPost_single_use (st : AuthState) (number : String) (otp now now2 : Nat)
    (u : UserRec) (hu : findUserByNumber st.users number = some u)
    (hnd : NoDupUserIds st.users)
    (hok : verify_otp st.otps u.id otp now = true) :
    lookupOTP (verifyOTPPost st number otp now).1.otps u.id = none ∧
    (verifyOTPPost (verifyOTPPost st number otp now).1 number otp now2).2.status =
      401 := by
  have hnum : u.number = number := (findUserByNumber_some hu).1
  have hfind2 : findUserByNumber (updateUser st.users { u with is_active := true })
      number = some { u with is_active := true } :=
    findUserByNumber_updateUser hu hnd rfl hnum
  have hver2 : verify_otp (delete_otp st.otps u.id) u.id otp now2 = false := by
    rw [verify_otp, lookupOTP_delete_otp]
  simp only [verifyOTPPost, hu, hok, handle_login, hfind2, hver2]
  exact ⟨lookupOTP_delete_otp st.otps u.id, trivial⟩

theorem verifyOTPPost_single_use_witness :
    findUserByNumber [⟨1, "0912", false⟩] "0912" = some ⟨1, "0912", false⟩ ∧
    NoDupUserIds [⟨1, "0912", false⟩] ∧
    verify_otp [(1, ⟨5, 30⟩)] 1 5 0 = true ∧
    (lookupOTP (verifyOTPPost ⟨[⟨1, "0912", false⟩], [(1, ⟨5, 30⟩)], 2⟩
        "0912" 5 0).1.otps 1 = none ∧
      (verifyOTPPost (verifyOTPPost ⟨[⟨1, "0912", false⟩], [(1, ⟨5, 30⟩)], 2⟩
        "0912" 5 0).1 "0912" 5 1).2.status = 401) :=
  ⟨rfl, by decide, by decide,
    verifyOTPPost_single_use ⟨[⟨1, "0912", false⟩], [(1, ⟨5, 30⟩)], 2⟩ "0912" 5 0 1
      ⟨1, "0912", false⟩ rfl (by decide) (by decide)⟩

/-- C9: at most one OTP is stored per user: `GenerateOTPView.post` deletes any
previously stored OTP for the user before generating the new one, so exactly
the fresh OTP remains stored and every earlier code stops verifying. -/
theorem generateOTPPost_unique (st : AuthState) (number : String) (code now : Nat)
    (u : UserRec) (hu : findUserByNumber st.users number = some u) :
    lookupOTP (generateOTPPost st number code now).1.otps u.id =
      some ⟨code, now + OTP_LIFETIME⟩ ∧
    countKey (generateOTPPost st number code now).1.otps u.id = 1 ∧
    ∀ oldCode t, ¬oldCode = code →
      verify_otp (generateOTPPost st number code now).1.otps u.id oldCode t = false := by
  simp only [generateOTPPost, hu, generate_otp]
  refine ⟨?_, ?_, ?_⟩
  · rw [lookupOTP, if_pos rfl]
  · rw [countKey_cons, if_pos rfl, countKey_delete_otp]
  · intro oldCode t hne
    rw [verify_otp]
    rw [show lookupOTP ((u.id, ⟨code, now + OTP_LIFETIME⟩) :: delete_otp st.otps u.id)
        u.id = some ⟨code, now + OTP_LIFETIME⟩ from by rw [lookupOTP, if_pos rfl]]
    simp [hne]

theorem generateOTPPost_unique_witness :
    findUserByNumber [⟨1, "0912", false⟩] "0912" = some ⟨1, "0912", false⟩ ∧
    (lookupOTP (generateOTPPost ⟨[⟨1, "0912", false⟩], [(1, ⟨11, 5⟩)], 2⟩
        "0912" 22 7).1.otps 1 = some ⟨22, 7 + OTP_LIFETIME⟩ ∧
      countKey (generateOTPPost ⟨[⟨1, "0912", false⟩], [(1, ⟨11, 5⟩)], 2⟩
        "0912" 22 7).1.otps 1 = 1 ∧
      ∀ oldCode t, ¬oldCode = 22 →
        verify_otp (generateOTPPost ⟨[⟨1, "0912", false⟩], [(1, ⟨11, 5⟩)], 2⟩
          "0912" 22 7).1.otps 1 oldCode t = false) :=
  ⟨rfl, generateOTPPost_unique ⟨[⟨1, "0912", false⟩], [(1, ⟨11, 5⟩)], 2⟩ "0912" 22 7
    ⟨1, "0912", false⟩ rfl⟩

/-! ## Comment-reply validation (`CommentProduct.clean` / `save`) -/

/-- A row of `CommentProduct` restricted to what `save`/`clean` read: the
primary key, the product foreign key and the optional parent-comment key. -/
structure CommentRow where
  id : Nat
  product_id : Nat
  parent_id : Option Nat
deriving DecidableEq, Repr

/-- Resolve a comment row by primary key. -/
def findCommentRow : List CommentRow → Nat → Option CommentRow
  | [], _ => none
  | r :: rs, rid => if r.id = rid then some r else findCommentRow rs rid

/-- `CommentProduct.clean` (`src/products/models.py`, lines 148-154): when a
parent comment is set it must belong to the same product, and must not itself
be a reply.  Returns the `ValidationError` message, if any.  (When
`parent_comment` is set the ORM resolves it to a stored row; a dangling key
cannot be cleaned and is rendered as a distinguished error.) -/
def cleanComment (rows : List CommentRow) (c : CommentRow) : Option String :=
  match c.parent_id with
  | none => none
  | some pid =>
    match findCommentRow rows pid with
    | none => some "PARENT_NOT_FOUND"
    | some p =>
      if ¬p.product_id = c.product_id then
        some "Product must be the same as the parent comment."
      else if ¬p.parent_id = none then some "Cannot reply to a reply."
      else none

/-- The write half of `super().save(*args, **kwargs)`: a `Model.save()` call
updates the stored row carrying the same primary key, and inserts the row
when its primary key is new. -/
def upsertCommentRow (rows : List CommentRow) (c : CommentRow) : List CommentRow :=
  match findCommentRow rows c.id with
  | some _ => rows.map (fun r => if r.id = c.id then c else r)
  | none => c :: rows

/-- `CommentProduct.save` (lines 156-158): run `self.clean()` and, when it
does not raise, write the row (insert or update). -/
def saveComment (rows : List CommentRow) (c : CommentRow) :
    Except String (List CommentRow) :=
  match cleanComment rows c with
  | some e => .error e
  | none => .ok (upsertCommentRow rows c)

/-- A row's parent key, when set, resolves to a stored row (the foreign-key
constraint). -/
def parentResolves (rows : List CommentRow) (c : CommentRow) : Bool :=
  match c.parent_id with
  | none => true
  | some pid => (findCommentRow rows pid).isSome

def WFParents (rows : List CommentRow) : Prop :=
  ∀ r ∈ rows, parentResolves rows r = true

instance : DecidablePred WFParents := by
  intro rows
  unfold WFParents
  infer_instance

/-- A stored comment is either top-level or a reply, on the same product, to a
top-level comment: combined over the table this is "depth at most two". -/
def rowOK (rows : List CommentRow) (r : CommentRow) : Bool :=
  match r.parent_id with
  | none => true
  | some pid =>
    match findCommentRow rows pid with
    | none => true
    | some p => decide (p.product_id = r.product_id ∧ p.parent_id = none)

def Depth2OK (rows : List CommentRow) : Prop :=
  ∀ r ∈ rows, rowOK rows r = true

instance : DecidablePred Depth2OK := by
  intro rows
  unfold Depth2OK
  infer_instance

theorem findCommentRow_some {rows : List CommentRow} {rid : Nat} {r : CommentRow}
    (h : findCommentRow rows rid = some r) : r.id = rid ∧ r ∈ rows := by
  induction rows with
  | nil => simp [findCommentRow] at h
  | cons hd tl ih =>
    rw [findCommentRow] at h
    split at h
    · cases h
      exact ⟨by assumption, List.mem_cons_self _ _⟩
    · rcases ih h with ⟨h1, h2⟩
      exact ⟨h1, List.mem_cons_of_mem _ h2⟩

theorem findCommentRow_cons_ne {rows : List CommentRow} {c : CommentRow} {rid : Nat}
    (h : ¬c.id = rid) : findCommentRow (c :: rows) rid = findCommentRow rows rid := by
  rw [findCommentRow, if_neg h]

theorem findCommentRow_none_of_forall {rows : List CommentRow} {rid : Nat}
    (h : ∀ r ∈ rows, ¬r.id = rid) : findCommentRow rows rid = none := by
  induction rows with
  | nil => rfl
  | cons hd tl ih =>
    rw [findCommentRow, if_neg (h hd (List.mem_cons_self _ _))]
    exact ih (fun r hr => h r (List.mem_cons_of_mem _ hr))

theorem upsertCommentRow_fresh {rows : List CommentRow} {c : CommentRow}
    (hfresh : ∀ r ∈ rows, ¬r.id = c.id) : upsertCommentRow rows c = c :: rows := by
  rw [upsertCommentRow, findCommentRow_none_of_forall hfresh]

/-- C10 (amended): `CommentProduct.save` raises `ValidationError` exactly
when the comment has a parent on a different product or a parent that is
itself a reply; and a save that inserts a comment under a fresh primary key
preserves the invariant that every stored reply sits directly under a
top-level comment of the same product.  (The unrestricted depth-two
consequence is false: a save that updates a stored comment can re-parent a
replied-to comment, see the counterexample below.) -/
theorem saveComment_validation (rows : List CommentRow) (c : CommentRow)
    (hwf : WFParents rows)
    (hres : parentResolves rows c = true)
    (hfresh : ∀ r ∈ rows, ¬r.id = c.id) :
    ((∃ e, saveComment rows c = .error e) ↔
      (∃ pid p, c.parent_id = some pid ∧ findCommentRow rows pid = some p ∧
        (¬p.product_id = c.product_id ∨ ¬p.parent_id = none))) ∧
    (Depth2OK rows → ∀ rows2, saveComment rows c = .ok rows2 → Depth2OK rows2) := by
  constructor
  · rcases hp : c.parent_id with _ | pid
    · simp only [saveComment, cleanComment, hp]
      constructor
      · rintro ⟨e, he⟩
        cases he
      · rintro ⟨pid, p, hpid, -⟩
        cases hpid
    · simp only [parentResolves, hp] at hres
      rcases hfp : findCommentRow rows pid with _ | p
      · rw [hfp] at hres
        simp at hres
      · by_cases hprod : p.product_id = c.product_id
        · by_cases hpar : p.parent_id = none
          · simp only [saveComment, cleanComment, hp, hfp, if_neg (not_not_intro hprod),
              if_neg (not_not_intro hpar)]
            constructor
            · rintro ⟨e, he⟩
              cases he
            · rintro ⟨pid2, p2, hpid2, hfp2, hbad⟩
              cases hpid2
              rw [hfp] at hfp2
              cases hfp2
              rcases hbad with hbad | hbad
              · exact absurd hprod hbad
              · exact absurd hpar hbad
          · simp only [saveComment, cleanComment, hp, hfp, if_neg (not_not_intro hprod),
              if_pos hpar]
            exact ⟨fun _ => ⟨pid, p, rfl, hfp, Or.inr hpar⟩,
              fun _ => ⟨"Cannot reply to a reply.", rfl⟩⟩
        · simp only [saveComment, cleanComment, hp, hfp, if_pos hprod]
          exact ⟨fun _ => ⟨pid, p, rfl, hfp, Or.inl hprod⟩,
            fun _ => ⟨"Product must be the same as the parent comment.", rfl⟩⟩
  · intro hdep rows2 hok
    have hclean : cleanComment rows c = none := by
      rcases hcl : cleanComment rows c with _ | e
      · rfl
      · rw [saveComment, hcl] at hok
        cases hok
    have hrows2 : rows2 = c :: rows := by
      rw [saveComment, hclean, upsertCommentRow_fresh hfresh] at hok
      cases hok
      rfl
    subst hrows2
    intro r hr
    rcases List.mem_cons.mp hr with rfl | hmem
    · rcases hp : r.parent_id with _ | pid
      · rw [rowOK, hp]
      · simp only [parentResolves, hp] at hres
        rcases hfp : findCommentRow rows pid with _ | p
        · rw [hfp] at hres
          simp at hres
        · have hpid_ne : ¬r.id = pid := by
            intro he
            exact hfresh p (findCommentRow_some hfp).2 ((findCommentRow_some hfp).1.trans he.symm)
          simp only [rowOK, hp, findCommentRow_cons_ne hpid_ne, hfp]
          simp only [cleanComment, hp, hfp] at hclean
          split at hclean
          · cases hclean
          · split at hclean
            · cases hclean
            · rename_i hprod hpar
              simp at hprod hpar
              simp [hprod, hpar]
    · rcases hp : r.parent_id with _ | pid
      · rw [rowOK, hp]
      · have hresr := hwf r hmem
        simp only [parentResolves, hp] at hresr
        rcases hfp : findCommentRow rows pid with _ | p
        · rw [hfp] at hresr
          simp at hresr
        · have hpid_ne : ¬c.id = pid := by
            intro he
            exact hfresh p (findCommentRow_some hfp).2 ((findCommentRow_some hfp).1.trans he.symm)
          have hold := hdep r hmem
          simp only [rowOK, hp, hfp] at hold
          simp only [rowOK, hp, findCommentRow_cons_ne hpid_ne, hfp]
          exact hold

theorem saveComment_validation_witness :
    WFParents [⟨1, 10, none⟩] ∧
    parentResolves [⟨1, 10, none⟩] ⟨2, 10, some 1⟩ = true ∧
    (∀ r ∈ [(⟨1, 10, none⟩ : CommentRow)], ¬r.id = 2) ∧
    (((∃ e, saveComment [⟨1, 10, none⟩] ⟨2, 10, some 1⟩ = .error e) ↔
        (∃ pid p, (⟨2, 10, some 1⟩ : CommentRow).parent_id = some pid ∧
          findCommentRow [⟨1, 10, none⟩] pid = some p ∧
          (¬p.product_id = 10 ∨ ¬p.parent_id = none))) ∧
      (Depth2OK [⟨1, 10, none⟩] → ∀ rows2,
        saveComment [⟨1, 10, none⟩] ⟨2, 10, some 1⟩ = .ok rows2 → Depth2OK rows2)) :=
  ⟨by decide, by decide, by decide,
    saveComment_validation [⟨1, 10, none⟩] ⟨2, 10, some 1⟩ (by decide) (by decide)
      (by decide)⟩

/-- C10 counterexample: the depth-two consequence of the claim is false.
Three comments on product 10 are saved (comment 3 replying to comment 2);
a fourth save then updates comment 2 to sit under comment 1.  `clean` only
inspects the saved comment's own parent, never its replies, so every save
succeeds, yet afterwards comment 3 is a reply to a reply (depth three). -/
theorem saveComment_depth2_counterexample :
    saveComment [] ⟨1, 10, none⟩ = .ok [⟨1, 10, none⟩] ∧
    saveComment [⟨1, 10, none⟩] ⟨2, 10, none⟩ = .ok [⟨2, 10, none⟩, ⟨1, 10, none⟩] ∧
    saveComment [⟨2, 10, none⟩, ⟨1, 10, none⟩] ⟨3, 10, some 2⟩ =
      .ok [⟨3, 10, some 2⟩, ⟨2, 10, none⟩, ⟨1, 10, none⟩] ∧
    saveComment [⟨3, 10, some 2⟩, ⟨2, 10, none⟩, ⟨1, 10, none⟩] ⟨2, 10, some 1⟩ =
      .ok [⟨3, 10, some 2⟩, ⟨2, 10, some 1⟩, ⟨1, 10, none⟩] ∧
    ¬Depth2OK [⟨3, 10, some 2⟩, ⟨2, 10, some 1⟩, ⟨1, 10, none⟩] := by
  refine ⟨rfl, rfl, rfl, rfl, ?_⟩
  decide

end Ecommerce
